import Mathlib

/-!
Verification development for the batch signature-verification engine of the
gpu-nostr-relay repository.

The Python sources under `src/` are shallowly embedded as executable Lean
definitions:

* `bytesFromHex` models Python `bytes.fromhex` (pairs of hex digits, ASCII
  spaces permitted between pairs, failure on anything else).
* `sha256` models `hashlib.sha256(...).digest()`.
* The `Secp` namespace models the curve arithmetic performed by libsecp256k1
  (the native library behind the `secp256k1` Python package): x-only public
  key reconstruction with the even-y convention, 64-byte compact signature
  parsing with group-order bounds, and ECDSA verification including the
  low-s normalization rule that `secp256k1_ecdsa_verify` enforces.
* `verify_signature_cpu` embeds the reference verifier of
  `src/gpu_validator.py` (identical code also appears in
  `src/gpu_validator_template.py`); the Python `try`-block is embedded as an
  `Except`-valued body so each exception path is explicit.  Note that the
  binding call `pubkey.ecdsa_verify(event_id, signature)` leaves the binding
  argument `raw` at its default `False`, so the binding hashes the message
  with SHA-256 before the curve check.
* `GpuValidator.validate`, `GpuValidatorTemplate.validate`,
  `GpuValidatorTemplate.verify_signatures_gpu_batch`, and
  `CudaECDSAValidator.verify_batch_gpu` embed the batch paths, with the
  native CUDA entry points abstracted as explicit oracle parameters because
  a foreign call's behaviour is data handed back across the FFI boundary.
-/

/-! ## Hexadecimal codec (Python `bytes.fromhex` / `bytes.hex`) -/

/-- Value of one hexadecimal digit character, or `none` for any other
character.  Mirrors the per-character test CPython performs inside
`bytes.fromhex`. -/
def hexDigitVal (c : Char) : Option Nat :=
  let v := c.toNat
  if 48 ≤ v ∧ v ≤ 57 then some (v - 48)
  else if 97 ≤ v ∧ v ≤ 102 then some (v - 87)
  else if 65 ≤ v ∧ v ≤ 70 then some (v - 55)
  else none

/-- Python `bytes.fromhex`: ASCII spaces are skipped between byte pairs, then
exactly two hexadecimal digits produce one byte; anything else raises
`ValueError`, modelled as `none`. -/
def bytesFromHex : List Char → Option (List Nat)
  | [] => some []
  | c :: rest =>
    if c = ' ' then bytesFromHex rest
    else
      match rest with
      | [] => none
      | c2 :: rest2 =>
        match hexDigitVal c, hexDigitVal c2 with
        | some v1, some v2 =>
          match bytesFromHex rest2 with
          | some bs => some ((16 * v1 + v2) :: bs)
          | none => none
        | _, _ => none

/-- Lower-case hexadecimal digit character for a value below 16, as produced
by Python `bytes.hex`. -/
def hexChar (v : Nat) : Char :=
  Char.ofNat (if v < 10 then 48 + v else 87 + v)

/-- Python `bytes.hex`: two lower-case hexadecimal digits per byte. -/
def bytesToHex : List Nat → List Char
  | [] => []
  | b :: t => hexChar (b / 16) :: hexChar (b % 16) :: bytesToHex t

/-- Big-endian interpretation of a byte string as a natural number, as
`int.from_bytes(_, "big")` computes it. -/
def natOfBytes (bs : List Nat) : Nat :=
  bs.foldl (fun a b => 256 * a + b) 0

/-- Big-endian encoding of a natural number into exactly `k` bytes, as
`int.to_bytes(k, "big")` computes it for values that fit. -/
def natToBytesBE : Nat → Nat → List Nat
  | 0, _ => []
  | k + 1, x => natToBytesBE k (x / 256) ++ [x % 256]

/-! ## SHA-256 (`hashlib.sha256`) -/

namespace Sha256

/-- Word arithmetic modulo `2^32`. -/
def addW (a b : Nat) : Nat := (a + b) % 4294967296

/-- Right rotation of a 32-bit word by `s` places. -/
def rotr (s x : Nat) : Nat := x / 2 ^ s + x % 2 ^ s * 2 ^ (32 - s)

/-- Bitwise complement within 32 bits. -/
def notW (x : Nat) : Nat := 4294967295 - x

/-- Choice function of the compression round. -/
def ch (e f g : Nat) : Nat := Nat.xor (Nat.land e f) (Nat.land (notW e) g)

/-- Majority function of the compression round. -/
def maj (a b c : Nat) : Nat :=
  Nat.xor (Nat.xor (Nat.land a b) (Nat.land a c)) (Nat.land b c)

/-- Big sigma-0 of the compression round. -/
def bigS0 (x : Nat) : Nat := Nat.xor (Nat.xor (rotr 2 x) (rotr 13 x)) (rotr 22 x)

/-- Big sigma-1 of the compression round. -/
def bigS1 (x : Nat) : Nat := Nat.xor (Nat.xor (rotr 6 x) (rotr 11 x)) (rotr 25 x)

/-- Small sigma-0 of the message schedule. -/
def smallS0 (x : Nat) : Nat := Nat.xor (Nat.xor (rotr 7 x) (rotr 18 x)) (x / 8)

/-- Small sigma-1 of the message schedule. -/
def smallS1 (x : Nat) : Nat := Nat.xor (Nat.xor (rotr 17 x) (rotr 19 x)) (x / 1024)

/-- The 64 round constants. -/
def K : List Nat :=
  [1116352408, 1899447441, 3049323471, 3921009573, 961987163, 1508970993, 2453635748, 2870763221,
   3624381080, 310598401, 607225278, 1426881987, 1925078388, 2162078206, 2614888103, 3248222580,
   3835390401, 4022224774, 264347078, 604807628, 770255983, 1249150122, 1555081692, 1996064986,
   2554220882, 2821834349, 2952996808, 3210313671, 3336571891, 3584528711, 113926993, 338241895,
   666307205, 773529912, 1294757372, 1396182291, 1695183700, 1986661051, 2177026350, 2456956037,
   2730485921, 2820302411, 3259730800, 3345764771, 3516065817, 3600352804, 4094571909, 275423344,
   430227734, 506948616, 659060556, 883997877, 958139571, 1322822218, 1537002063, 1747873779,
   1955562222, 2024104815, 2227730452, 2361852424, 2428436474, 2756734187, 3204031479, 3329325298]

/-- Hash state: the eight working words. -/
structure H8 where
  a : Nat
  b : Nat
  c : Nat
  d : Nat
  e : Nat
  f : Nat
  g : Nat
  h : Nat

/-- Initial hash value. -/
def H0 : H8 :=
  ⟨1779033703, 3144134277, 1013904242, 2773480762,
   1359893119, 2600822924, 528734635, 1541459225⟩

/-- Pack bytes into big-endian 32-bit words. -/
def toWords : List Nat → List Nat
  | a :: b :: c :: d :: t => (a * 16777216 + b * 65536 + c * 256 + d) :: toWords t
  | _ => []

/-- Extend the 16 block words to 64 schedule words; the accumulator holds the
words produced so far, most recent first. -/
def extendW : Nat → List Nat → List Nat
  | 0, acc => acc.reverse
  | fuel + 1, acc =>
    extendW fuel
      (addW (addW (smallS1 (acc.getD 1 0)) (acc.getD 6 0))
        (addW (smallS0 (acc.getD 14 0)) (acc.getD 15 0)) :: acc)

/-- One compression round with a given round constant and schedule word. -/
def round1 (s : H8) (kw : Nat × Nat) : H8 :=
  let t1 := addW s.h (addW (bigS1 s.e) (addW (ch s.e s.f s.g) (addW kw.1 kw.2)))
  let t2 := addW (bigS0 s.a) (maj s.a s.b s.c)
  ⟨addW t1 t2, s.a, s.b, s.c, addW s.d t1, s.e, s.f, s.g⟩

/-- Compress one 64-byte block into the running hash state. -/
def compress (s : H8) (block : List Nat) : H8 :=
  let w := extendW 48 (toWords block).reverse
  let t := (K.zip w).foldl round1 s
  ⟨addW s.a t.a, addW s.b t.b, addW s.c t.c, addW s.d t.d,
   addW s.e t.e, addW s.f t.f, addW s.g t.g, addW s.h t.h⟩

/-- Append the `0x80` marker, the zero padding, and the 64-bit bit length. -/
def pad (msg : List Nat) : List Nat :=
  msg ++ 128 :: List.replicate ((119 - msg.length % 64) % 64) 0
    ++ natToBytesBE 8 (8 * msg.length)

/-- Split a byte string into 64-byte blocks; the first argument is fuel
bounding the number of blocks. -/
def blocks : Nat → List Nat → List (List Nat)
  | 0, _ => []
  | _, [] => []
  | fuel + 1, l => l.take 64 :: blocks fuel (l.drop 64)

end Sha256

/-- SHA-256 digest of a byte string, as `hashlib.sha256(msg).digest()`
returns it. -/
def sha256 (msg : List Nat) : List Nat :=
  let padded := Sha256.pad msg
  let s := (Sha256.blocks (padded.length / 64 + 1) padded).foldl Sha256.compress Sha256.H0
  natToBytesBE 4 s.a ++ natToBytesBE 4 s.b ++ natToBytesBE 4 s.c ++ natToBytesBE 4 s.d
    ++ natToBytesBE 4 s.e ++ natToBytesBE 4 s.f ++ natToBytesBE 4 s.g ++ natToBytesBE 4 s.h

/-! ## secp256k1 arithmetic (libsecp256k1 behind the `secp256k1` package) -/

namespace Secp

/-- Field prime of secp256k1. -/
def p : Nat := 2 ^ 256 - 2 ^ 32 - 977

/-- Group order of secp256k1. -/
def n : Nat :=
  115792089237316195423570985008687907852837564279074904382605163141518161494337

/-- Base point x-coordinate. -/
def gx : Nat :=
  55066263022277343669578718895168534326250603453777594175500187360389116729240

/-- Base point y-coordinate. -/
def gy : Nat :=
  32670510020758816978083085130507043184471273380659243275938904335757337482424

/-- Field multiplication. -/
def mulP (a b : Nat) : Nat := a * b % p

/-- Field subtraction of values already reduced below `p`. -/
def subP (a b : Nat) : Nat := (a + p - b) % p

/-- Binary modular exponentiation; the fuel bounds the bit length of the
exponent (257 suffices for all exponents below `2^257`). -/
def powModAux : Nat → Nat → Nat → Nat → Nat → Nat
  | 0, _, _, _, acc => acc
  | fuel + 1, b, e, m, acc =>
    if e = 0 then acc
    else powModAux fuel (b * b % m) (e / 2) m (if e % 2 = 1 then acc * b % m else acc)

/-- Modular exponentiation `b ^ e mod m` for `m > 1`, `e < 2^257`. -/
def powMod (b e m : Nat) : Nat := powModAux 257 (b % m) e m (1 % m)

/-- Modular inverse in the field via Fermat. -/
def invP (a : Nat) : Nat := powMod a (p - 2) p

/-- Modular inverse modulo the group order via Fermat. -/
def invN (a : Nat) : Nat := powMod a (n - 2) n

/-- Curve point in Jacobian coordinates `(X, Y, Z)`; `Z = 0` encodes the
point at infinity, `x = X / Z^2`, `y = Y / Z^3`. -/
structure Jac where
  x : Nat
  y : Nat
  z : Nat

/-- The point at infinity. -/
def Jac.inf : Jac := ⟨0, 1, 0⟩

/-- A finite affine point embedded in Jacobian coordinates. -/
def Jac.ofAffine (q : Nat × Nat) : Jac := ⟨q.1, q.2, 1⟩

/-- Point doubling on `y^2 = x^3 + 7` in Jacobian coordinates. -/
def jacDouble (q : Jac) : Jac :=
  if q.z = 0 ∨ q.y = 0 then Jac.inf
  else
    let s := mulP 4 (mulP q.x (mulP q.y q.y))
    let m := mulP 3 (mulP q.x q.x)
    let x3 := subP (mulP m m) (mulP 2 s)
    let y3 := subP (mulP m (subP s x3)) (mulP 8 (mulP (mulP q.y q.y) (mulP q.y q.y)))
    ⟨x3, y3, mulP 2 (mulP q.y q.z)⟩

/-- Point addition on `y^2 = x^3 + 7` in Jacobian coordinates, with the
doubling and inverse cases handled explicitly. -/
def jacAdd (q r : Jac) : Jac :=
  if q.z = 0 then r
  else if r.z = 0 then q
  else
    let z1z1 := mulP q.z q.z
    let z2z2 := mulP r.z r.z
    let u1 := mulP q.x z2z2
    let u2 := mulP r.x z1z1
    let s1 := mulP q.y (mulP r.z z2z2)
    let s2 := mulP r.y (mulP q.z z1z1)
    if u1 = u2 then
      if s1 = s2 then jacDouble q else Jac.inf
    else
      let h := subP u2 u1
      let rr := subP s2 s1
      let h2 := mulP h h
      let h3 := mulP h2 h
      let v := mulP u1 h2
      let x3 := subP (subP (mulP rr rr) h3) (mulP 2 v)
      let y3 := subP (mulP rr (subP v x3)) (mulP s1 h3)
      ⟨x3, y3, mulP h (mulP q.z r.z)⟩

/-- Binary scalar multiplication; the fuel bounds the scalar bit length. -/
def jacMulAux : Nat → Nat → Jac → Jac → Jac
  | 0, _, acc, _ => acc
  | fuel + 1, k, acc, base =>
    if k = 0 then acc
    else jacMulAux fuel (k / 2) (if k % 2 = 1 then jacAdd acc base else acc) (jacDouble base)

/-- Scalar multiplication `k * q`. -/
def jacMul (k : Nat) (q : Jac) : Jac := jacMulAux 257 k Jac.inf q

/-- The base point in Jacobian coordinates. -/
def jacG : Jac := ⟨gx, gy, 1⟩

/-- Conversion back to an affine point; `none` is the point at infinity. -/
def toAffine (q : Jac) : Option (Nat × Nat) :=
  if q.z = 0 then none
  else
    let zi := invP q.z
    let zi2 := mulP zi zi
    some (mulP q.x zi2, mulP q.y (mulP zi zi2))

/-- Reconstruction of a curve point from a 32-byte x-coordinate with even y,
as `secp256k1_ec_pubkey_parse` does for a compressed key with prefix `0x02`:
the coordinate must be below `p` and `x^3 + 7` must be a quadratic residue;
the root is fixed to the even choice. -/
def liftEven (x : Nat) : Option (Nat × Nat) :=
  if p ≤ x then none
  else
    let y2 := (mulP (mulP x x) x + 7) % p
    let y := powMod y2 ((p + 1) / 4) p
    if mulP y y ≠ y2 then none
    else some (x, if y % 2 = 0 then y else p - y)

/-- Parsing of a 64-byte compact signature, as
`secp256k1_ecdsa_signature_parse_compact`: big-endian `r` then `s`, each of
which must be below the group order. -/
def parseCompact (bs : List Nat) : Option (Nat × Nat) :=
  if bs.length = 64 then
    let r := natOfBytes (bs.take 32)
    let s := natOfBytes (bs.drop 32)
    if n ≤ r ∨ n ≤ s then none else some (r, s)
  else none

/-- ECDSA verification of a digest scalar `z` against `(r, s)` and an affine
public key, as `secp256k1_ecdsa_verify` computes it: `r` and `s` must be
nonzero scalars, `s` must be in low-s normalized form, and the recomputed
point must match `r` modulo the group order. -/
def ecdsaCoreVerify (z r s : Nat) (q : Nat × Nat) : Bool :=
  if r = 0 ∨ s = 0 ∨ n ≤ r ∨ n ≤ s then false
  else if n / 2 < s then false
  else
    let w := invN s
    let u1 := z * w % n
    let u2 := r * w % n
    match toAffine (jacAdd (jacMul u1 jacG) (jacMul u2 (Jac.ofAffine q))) with
    | none => false
    | some (x, _) => x % n == r

end Secp

/-! ## The reference verifier (`verify_signature_cpu` in `src/gpu_validator.py`) -/

/-- Python exception classes distinguished by the embedding. -/
inductive PyExc where
  | valueError
  | runtimeError
  | genericError
deriving DecidableEq, Repr

/-- Construction of `secp256k1.PublicKey(b"\x02" + pubkey_bytes, raw=True)`:
the serialized key must be exactly 33 bytes — so `pubkey_bytes` must be 32
bytes — and with prefix `0x02` the x-coordinate must lift to a curve point
with even y; every failure raises, modelled as `none`. -/
def pubkeyParse (pubkeyBytes : List Nat) : Option (Nat × Nat) :=
  if pubkeyBytes.length = 32 then Secp.liftEven (natOfBytes pubkeyBytes) else none

/-- Body of the `try` block of `verify_signature_cpu`
(`src/gpu_validator.py`, lines 9-24), with each Python exception path made
explicit: hex decoding of the three fields, public key construction,
compact signature deserialization, and finally
`pubkey.ecdsa_verify(event_id, signature)` — whose `raw` argument defaults
to `False`, so the binding verifies against the SHA-256 digest of
`event_id`. -/
def verifyCpuBody (eventIdHex signatureHex pubkeyHex : List Char) :
    Except PyExc Bool :=
  match bytesFromHex eventIdHex with
  | none => .error .valueError
  | some eventId =>
    match bytesFromHex signatureHex with
    | none => .error .valueError
    | some signatureBytes =>
      match bytesFromHex pubkeyHex with
      | none => .error .valueError
      | some pubkeyBytes =>
        match pubkeyParse pubkeyBytes with
        | none => .error .genericError
        | some q =>
          match Secp.parseCompact signatureBytes with
          | none => .error .genericError
          | some (r, s) =>
            .ok (Secp.ecdsaCoreVerify (natOfBytes (sha256 eventId) % Secp.n) r s q)

/-- The reference verifier `verify_signature_cpu` of `src/gpu_validator.py`:
the `try` body with every exception converted to `False`. -/
def verify_signature_cpu (eventIdHex signatureHex pubkeyHex : List Char) : Bool :=
  match verifyCpuBody eventIdHex signatureHex pubkeyHex with
  | .ok b => b
  | .error _ => false

/-- A nostr event as the validators consume it: the three hex-string fields
`id`, `sig`, `pubkey`. -/
structure NostrEvent where
  id : List Char
  sig : List Char
  pubkey : List Char

/-- Verification of one event through the reference verifier, as
`self.verify_signature_cpu(event.id, event.sig, event.pubkey)`. -/
def evVerify (e : NostrEvent) : Bool :=
  verify_signature_cpu e.id e.sig e.pubkey

namespace GpuValidator

/-- The batch `validate` of the `GpuSigValidator` class in
`src/gpu_validator.py`: empty input returns `[]`; otherwise each event is
verified in order by `verifyOne` (in the source, the bound method
`self.verify_signature_cpu`, abstracted here as a parameter so that
invocation of the verifier is observable); the per-event `try/except` of the
loop is dead code because the verifier is total. -/
def validate (verifyOne : NostrEvent → Bool) (events : List NostrEvent) : List Bool :=
  if events.isEmpty then [] else events.map verifyOne

end GpuValidator

/-! ## The spec's ReferenceVerifier contract (spec section 4.2) -/

namespace ReferenceVerifier

/-- The spec's ReferenceVerifier shape, parameterized by how the digest
scalar is obtained from the 32-byte id: exact 32/64/32 widths, even-y
reconstruction of the public key from its x-coordinate, compact `r‖s`
parsing, then the curve verification the reference library implements; any
parse or curve failure is `false`. -/
def verifyCore (digest : List Nat → Nat) (eventId signature pubkey : List Nat) : Bool :=
  if eventId.length = 32 ∧ signature.length = 64 ∧ pubkey.length = 32 then
    match Secp.liftEven (natOfBytes pubkey), Secp.parseCompact signature with
    | some q, some (r, s) => Secp.ecdsaCoreVerify (digest eventId) r s q
    | _, _ => false
  else false

/-- The spec's ReferenceVerifier with the id treated directly as the signed
digest, exactly as section 4.2 words it: no additional hashing inside the
verifier. -/
def verifyNoHash : List Nat → List Nat → List Nat → Bool :=
  verifyCore (fun eventId => natOfBytes eventId % Secp.n)

/-- The byte-level reference verification the repository actually performs:
the digest scalar is the SHA-256 hash of the id bytes, because the binding
call leaves `raw=False`. -/
def verify : List Nat → List Nat → List Nat → Bool :=
  verifyCore (fun eventId => natOfBytes (sha256 eventId) % Secp.n)

end ReferenceVerifier

/-! ## The archived CUDA binding (`src/archive/cuda_gpu_validator.py`) -/

/-- Pointwise zip of three lists, truncating at the shortest. -/
def zip3 : List α → List β → List γ → List (α × β × γ)
  | a :: as_, b :: bs, c :: cs => (a, b, c) :: zip3 as_ bs cs
  | _, _, _ => []

namespace CudaECDSAValidator

/-- Behaviour of the native call
`self.lib.cuda_ecdsa_verify_batch(event_ids, signatures, pubkeys, results, count)`
at the FFI boundary: given the marshalled per-request byte triples it either
raises (`.error`) or returns a status code together with the contents the
native code wrote into the results array. -/
def CudaOracle : Type :=
  List (List Nat) → List (List Nat) → List (List Nat) → Except PyExc (Int × List Int)

/-- The data-copy loop of `verify_batch_gpu` (lines 73-87): for each index
the event id must be 32 bytes, the signature 64 bytes and the public key 32
bytes, each violation raising `ValueError` before the native call. -/
def marshalLoop : List (List Nat × List Nat × List Nat) → Except PyExc Unit
  | [] => .ok ()
  | (i, s, pk) :: rest =>
    if i.length ≠ 32 then .error .valueError
    else if s.length ≠ 64 then .error .valueError
    else if pk.length ≠ 32 then .error .valueError
    else marshalLoop rest

/-- The batch entry point `CudaECDSAValidator.verify_batch_gpu`
(`src/archive/cuda_gpu_validator.py`, lines 43-98): `RuntimeError` when CUDA
is unavailable, `ValueError` on length mismatch, `[]` for an empty batch,
the width-checking copy loop, the single native call, `RuntimeError` on a
nonzero status, and otherwise `bool(results_array[i])` for each index. -/
def verify_batch_gpu (cudaAvailable : Bool) (oracle : CudaOracle)
    (eventIds signatures pubkeys : List (List Nat)) : Except PyExc (List Bool) :=
  if cudaAvailable = false then .error .runtimeError
  else if eventIds.length ≠ signatures.length ∨ eventIds.length ≠ pubkeys.length then
    .error .valueError
  else if eventIds.length = 0 then .ok []
  else
    match marshalLoop (zip3 eventIds signatures pubkeys) with
    | .error e => .error e
    | .ok _ =>
      match oracle eventIds signatures pubkeys with
      | .error e => .error e
      | .ok (status, res) =>
        if status ≠ 0 then .error .runtimeError
        else .ok ((List.range eventIds.length).map (fun i => res.getD i 0 != 0))

end CudaECDSAValidator

/-- Modelled from the spec: the CUDA kernel `cuda_ecdsa_verify_batch` of
`libcuda_ecdsa.so` is repository code that is not under `src/` (only its
ctypes declaration and callers are).  Per the spec's functional-equivalence
contract — "for any two semantically identical requests, ReferenceVerifier
and AcceleratorBinding (when Ready) must return the same boolean" — the
native call succeeds with status 0 and writes, for each request index, the
same boolean the reference verification computes for that request's bytes. -/
def cudaModelOracle : CudaECDSAValidator.CudaOracle :=
  fun eventIds signatures pubkeys =>
    .ok (0, (zip3 eventIds signatures pubkeys).map
      (fun t => if ReferenceVerifier.verify t.1 t.2.1 t.2.2 then 1 else 0))

/-- Hex decoding of a list of fields, as the list comprehensions
`[bytes.fromhex(x) for x in ...]` perform it: the first failure raises,
modelled as `none`. -/
def decodeAll : List (List Char) → Option (List (List Nat))
  | [] => some []
  | h :: t =>
    match bytesFromHex h with
    | none => none
    | some b =>
      match decodeAll t with
      | none => none
      | some bs => some (b :: bs)

/-- The archived batch wrapper `verify_signatures_batch_gpu`
(`src/archive/cuda_gpu_validator.py`, lines 134-174): empty input returns
`[]`; without CUDA the whole batch is computed by the reference verifier;
otherwise the three field lists are hex-decoded and handed to
`verify_batch_gpu`, and any raised exception — a decode failure or a
failed native call — makes the outer `except` recompute the entire batch
through the reference verifier (its innermost `except` returning
`[False] * len` is unreachable because the reference path is total). -/
def verify_signatures_batch_gpu (cudaAvailable : Bool)
    (oracle : CudaECDSAValidator.CudaOracle)
    (eventsData : List (List Char × List Char × List Char)) : List Bool :=
  if eventsData.isEmpty then []
  else if cudaAvailable = false then
    eventsData.map (fun t => verify_signature_cpu t.1 t.2.1 t.2.2)
  else
    match decodeAll (eventsData.map (fun t => t.1)) with
    | none => eventsData.map (fun t => verify_signature_cpu t.1 t.2.1 t.2.2)
    | some ids =>
      match decodeAll (eventsData.map (fun t => t.2.1)) with
      | none => eventsData.map (fun t => verify_signature_cpu t.1 t.2.1 t.2.2)
      | some sigs =>
        match decodeAll (eventsData.map (fun t => t.2.2)) with
        | none => eventsData.map (fun t => verify_signature_cpu t.1 t.2.1 t.2.2)
        | some pks =>
          match CudaECDSAValidator.verify_batch_gpu true oracle ids sigs pks with
          | .error _ => eventsData.map (fun t => verify_signature_cpu t.1 t.2.1 t.2.2)
          | .ok res => res

/-! ## The template validator (`src/gpu_validator_template.py`) -/

namespace GpuValidatorTemplate

/-- Behaviour of the native call `self.gpu_lib.batch_verify_signatures(...)`
at the FFI boundary: given the marshalled per-event byte triples it either
raises or returns a status code and the contents of the results array. -/
def GpuOracle : Type :=
  List (List Nat × List Nat × List Nat) → Except Unit (Int × List Int)

/-- Fixed-width copy as `ctypes.memmove(dst, src, w)` performs it.  When the
source is at least `w` bytes the first `w` bytes are copied; a shorter
source makes the C call read out of bounds — undefined behaviour, modelled
here as zero fill, and no theorem below depends on that case. -/
def memmoveFixed (w : Nat) (src : List Nat) : List Nat :=
  (src ++ List.replicate w 0).take w

/-- Per-event marshalling of the input-filling loop of
`verify_signatures_gpu_batch` (lines 93-109): hex-decode the three fields
and copy them at fixed widths 32/64/32; a decode failure raises, modelled
as `none`. -/
def prepEvent (e : NostrEvent) : Option (List Nat × List Nat × List Nat) :=
  match bytesFromHex e.id with
  | none => none
  | some i =>
    match bytesFromHex e.sig with
    | none => none
    | some s =>
      match bytesFromHex e.pubkey with
      | none => none
      | some pk => some (memmoveFixed 32 i, memmoveFixed 64 s, memmoveFixed 32 pk)

/-- The input-filling loop over the whole batch: marshalling stops at the
first failing event, exactly as the Python `for` loop returns from inside
its `except` clause. -/
def prepEvents : List NostrEvent → Option (List (List Nat × List Nat × List Nat))
  | [] => some []
  | e :: rest =>
    match prepEvent e with
    | none => none
    | some t =>
      match prepEvents rest with
      | none => none
      | some ts => some (t :: ts)

/-- The GPU batch path `verify_signatures_gpu_batch` of the
`GpuSigValidator` class in `src/gpu_validator_template.py` (lines 79-130):
`[]` when the GPU is unavailable or the batch is empty; a marshalling
failure for any event returns `[False] * count` for the whole batch; the
single native call follows, and a raised exception or a nonzero status also
returns `[False] * count`; otherwise `bool(results[i])` per index. -/
def verify_signatures_gpu_batch (oracle : GpuOracle) (gpuAvailable : Bool)
    (events : List NostrEvent) : List Bool :=
  if gpuAvailable = false ∨ events.isEmpty then []
  else
    match prepEvents events with
    | none => List.replicate events.length false
    | some triples =>
      match oracle triples with
      | .error _ => List.replicate events.length false
      | .ok (status, res) =>
        if status ≠ 0 then List.replicate events.length false
        else (List.range events.length).map (fun i => res.getD i 0 != 0)

/-- The batch `validate` of `src/gpu_validator_template.py` (lines 132-156):
empty input returns `[]`; with the GPU available and more than 10 events the
batch goes to `verify_signatures_gpu_batch` (whose embedding never raises,
matching the Python function, which catches all its own exceptions — so the
CPU fallback of the surrounding `try/except` is unreachable from it);
otherwise every event is verified in order by `verifyOne` (in the source the
bound method `self.verify_signature_cpu`, abstracted as a parameter so that
invocation of the reference verifier is observable). -/
def validate (verifyOne : NostrEvent → Bool) (oracle : GpuOracle)
    (gpuAvailable : Bool) (events : List NostrEvent) : List Bool :=
  if events.isEmpty then []
  else if gpuAvailable = true ∧ 10 < events.length then
    verify_signatures_gpu_batch oracle gpuAvailable events
  else events.map verifyOne

end GpuValidatorTemplate

/-! ## Backend readiness as a state machine
(`src/archive/cuda_gpu_validator.py`) -/

namespace Backend

/-- Readiness of the process-wide backend handle.  In the source,
`unloaded` is the state before the module-level singleton
`_cuda_validator` exists, `ready` is a constructed validator with
`cuda_available = True`, and `unavailable` is a constructed validator with
`cuda_available = False` (library missing or failed to load). -/
inductive Readiness where
  | unloaded
  | ready
  | unavailable
deriving DecidableEq, Repr

/-- One operation against the handle: the lazy singleton initialization
(`if "_cuda_validator" not in globals(): _cuda_validator = CudaECDSAValidator()`,
with `loadOk` telling whether `__init__` found and loaded the library), or a
verification call (`verify_signature_gpu` / `verify_batch_gpu`, with
`callOk` telling whether the native call succeeded). -/
inductive BackendOp where
  | initOp (loadOk : Bool)
  | callOp (callOk : Bool)

/-- The state transition the source performs for one operation:
initialization constructs the singleton only from the unloaded state
(`__init__` sets `cuda_available` once, lines 13-29), and no verification
call ever writes `cuda_available` (lines 100-174). -/
def step (s : Readiness) (op : BackendOp) : Readiness :=
  match op, s with
  | .initOp loadOk, .unloaded => if loadOk then .ready else .unavailable
  | .initOp _, s => s
  | .callOp _, s => s

/-- The state after a sequence of operations from the given start state. -/
def run (s : Readiness) (ops : List BackendOp) : Readiness :=
  ops.foldl step s

end Backend

/-! ## Concrete inputs used by the counterexamples and witnesses -/

/-- A 32-byte id consisting of the byte `0x11` repeated. -/
def id1B : List Nat := List.replicate 32 17

/-- A 64-byte compact signature that is valid for the public key `gx` over
the digest `sha256 id1B`: it is the textbook ECDSA signature with private
key 1 and nonce 1, that is `r = gx` and `s = (z + gx) mod n` brought to
low-s form, where `z` is the digest scalar. -/
def sig1B : List Nat :=
  natToBytesBE 32 Secp.gx ++
  natToBytesBE 32 56345968522473186606205575377123678451131228854502009006476883579189581370996

/-- The base point x-coordinate as a 32-byte public key; its even-y lift is
the base point itself. -/
def pkGB : List Nat := natToBytesBE 32 Secp.gx

/-- The hex-field event whose id is `id1B`: a request the reference verifier
accepts. -/
def ev1 : NostrEvent := ⟨bytesToHex id1B, bytesToHex sig1B, bytesToHex pkGB⟩

/-- A 31-byte id — one byte short of the required width. -/
def id31B : List Nat := List.replicate 31 34

/-- A 64-byte compact signature valid for the public key `gx` over
`sha256 id31B`, constructed like `sig1B`. -/
def sig31B : List Nat :=
  natToBytesBE 32 Secp.gx ++
  natToBytesBE 32 11733391065497481491036800742983752153739713711132818279985063210601378550070

/-- The event whose id field decodes to only 31 bytes yet which the CPU path
accepts, because the wrong-width id is hashed rather than rejected. -/
def ev31 : NostrEvent := ⟨bytesToHex id31B, bytesToHex sig31B, bytesToHex pkGB⟩

/-- An event whose signature field contains a character that is not a
hexadecimal digit. -/
def evBadSig : NostrEvent := ⟨bytesToHex id1B, ['z', 'z'], bytesToHex pkGB⟩

/-- The all-zero request of the spec's first literal scenario. -/
def evZero : NostrEvent :=
  ⟨bytesToHex (List.replicate 32 0), bytesToHex (List.replicate 64 0),
   bytesToHex (List.replicate 32 0)⟩

/-! ## Helper lemmas -/

/-- The validate loop of `src/gpu_validator.py` is an ordered map of the
per-event verifier. -/
theorem GpuValidator.validate_eq_map (verifyOne : NostrEvent → Bool)
    (events : List NostrEvent) :
    GpuValidator.validate verifyOne events = events.map verifyOne := by
  cases events <;> simp [GpuValidator.validate]

/-- Decoding a hex digit produced by the encoder recovers the value. -/
theorem hexDigitVal_hexChar (v : Nat) (h : v < 16) :
    hexDigitVal (hexChar v) = some v := by
  interval_cases v <;> decide

/-- Encoded hex digits are never the space character. -/
theorem hexChar_ne_space (v : Nat) (h : v < 16) : hexChar v ≠ ' ' := by
  interval_cases v <;> decide

/-- Round trip of the hex codec on byte values: decoding an encoding yields
the original bytes. -/
theorem bytesFromHex_bytesToHex (l : List Nat) (h : ∀ b ∈ l, b < 256) :
    bytesFromHex (bytesToHex l) = some l := by
  induction l with
  | nil => rfl
  | cons b t ih =>
    have hb : b < 256 := h b (List.mem_cons_self b t)
    have hdiv : b / 16 < 16 := by omega
    have hmod : b % 16 < 16 := by omega
    have ht := ih (fun x hx => h x (List.mem_cons_of_mem b hx))
    have hb2 : 16 * (b / 16) + b % 16 = b := by omega
    simp only [bytesToHex, bytesFromHex, if_neg (hexChar_ne_space _ hdiv),
      hexDigitVal_hexChar _ hdiv, hexDigitVal_hexChar _ hmod, ht, hb2]

/-- On well-formed fields, the Python reference verifier applied to the hex
encodings computes exactly the byte-level reference verification: the hex
round trip, the 33-byte even-y key reconstruction, the compact parse, and
the curve check with the SHA-256 digest scalar all correspond. -/
theorem verify_signature_cpu_eq_reference (i s pk : List Nat)
    (hi : i.length = 32) (hs : s.length = 64) (hp : pk.length = 32)
    (hbi : ∀ b ∈ i, b < 256) (hbs : ∀ b ∈ s, b < 256) (hbp : ∀ b ∈ pk, b < 256) :
    verify_signature_cpu (bytesToHex i) (bytesToHex s) (bytesToHex pk) =
      ReferenceVerifier.verify i s pk := by
  unfold verify_signature_cpu verifyCpuBody
  rw [bytesFromHex_bytesToHex i hbi, bytesFromHex_bytesToHex s hbs,
    bytesFromHex_bytesToHex pk hbp]
  unfold ReferenceVerifier.verify ReferenceVerifier.verifyCore pubkeyParse
  simp only [hi, hs, hp, and_self, if_true, if_pos]
  cases hq : Secp.liftEven (natOfBytes pk) with
  | none => rfl
  | some q =>
    cases hc : Secp.parseCompact s with
    | none => rfl
    | some rs => rfl

/-- Length of a three-way zip of equal-length lists. -/
theorem zip3_length {α β γ : Type} (as : List α) (bs : List β) (cs : List γ)
    (h1 : bs.length = as.length) (h2 : cs.length = as.length) :
    (zip3 as bs cs).length = as.length := by
  induction as generalizing bs cs with
  | nil => cases bs <;> cases cs <;> simp [zip3]
  | cons a t ih =>
    cases bs with
    | nil => simp at h1
    | cons b tb =>
      cases cs with
      | nil => simp at h2
      | cons c tc =>
        simp only [zip3, List.length_cons]
        rw [ih tb tc (by simpa using h1) (by simpa using h2)]

/-- Members of a three-way zip are members of the respective lists. -/
theorem mem_zip3 {α β γ : Type} {as : List α} {bs : List β} {cs : List γ}
    {t : α × β × γ} (h : t ∈ zip3 as bs cs) :
    t.1 ∈ as ∧ t.2.1 ∈ bs ∧ t.2.2 ∈ cs := by
  induction as generalizing bs cs with
  | nil => cases bs <;> cases cs <;> simp [zip3] at h
  | cons a ta ih =>
    cases bs with
    | nil => simp [zip3] at h
    | cons b tb =>
      cases cs with
      | nil => simp [zip3] at h
      | cons c tc =>
        simp only [zip3, List.mem_cons] at h
        rcases h with h | h
        · subst h; exact ⟨List.mem_cons_self .., by simp, by simp⟩
        · have := ih h
          exact ⟨List.mem_cons_of_mem _ this.1, List.mem_cons_of_mem _ this.2.1,
            List.mem_cons_of_mem _ this.2.2⟩

/-- A three-way zip of maps over a common index list is the map of the
tupled picks. -/
theorem zip3_map_common {α β γ δ : Type} (σ : List δ)
    (f : δ → α) (g : δ → β) (h : δ → γ) :
    zip3 (σ.map f) (σ.map g) (σ.map h) = σ.map (fun j => (f j, g j, h j)) := by
  induction σ with
  | nil => rfl
  | cons j t ih => simp only [List.map_cons, zip3, ih]

/-- Indexing a list by the full range of its positions is the identity map. -/
theorem range_map_getD {α β : Type} (l : List α) (d : α) (f : α → β) :
    (List.range l.length).map (fun i => f (l.getD i d)) = l.map f := by
  induction l with
  | nil => rfl
  | cons a t ih =>
    rw [List.length_cons, List.range_succ_eq_map]
    simp only [List.map_cons, List.getD_cons_zero, List.map_map]
    have hc : ((fun i => f ((a :: t).getD i d)) ∘ Nat.succ) = fun i => f (t.getD i d) := by
      funext i
      simp [Function.comp]
    rw [hc, ih]

/-- The copy loop accepts a batch in which every triple has the required
widths. -/
theorem marshalLoop_ok (l : List (List Nat × List Nat × List Nat))
    (h : ∀ t ∈ l, t.1.length = 32 ∧ t.2.1.length = 64 ∧ t.2.2.length = 32) :
    CudaECDSAValidator.marshalLoop l = .ok () := by
  induction l with
  | nil => rfl
  | cons t rest ih =>
    obtain ⟨h1, h2, h3⟩ := h t (List.mem_cons_self ..)
    simp only [CudaECDSAValidator.marshalLoop, h1, h2, h3]
    simpa using ih (fun u hu => h u (List.mem_cons_of_mem _ hu))

/-- The copy loop raises `ValueError` as soon as any triple violates a
width requirement. -/
theorem marshalLoop_err (l : List (List Nat × List Nat × List Nat))
    (h : ∃ t ∈ l, t.1.length ≠ 32 ∨ t.2.1.length ≠ 64 ∨ t.2.2.length ≠ 32) :
    CudaECDSAValidator.marshalLoop l = .error .valueError := by
  induction l with
  | nil => simp at h
  | cons t rest ih =>
    obtain ⟨u, hu, hbad⟩ := h
    rcases List.mem_cons.mp hu with rfl | hu
    · rcases hbad with hb | hb | hb <;> simp [CudaECDSAValidator.marshalLoop, hb]
    · by_cases c1 : t.1.length = 32
      · by_cases c2 : t.2.1.length = 64
        · by_cases c3 : t.2.2.length = 32
          · simp only [CudaECDSAValidator.marshalLoop, c1, c2, c3]
            simpa using ih ⟨u, hu, hbad⟩
          · simp [CudaECDSAValidator.marshalLoop, c1, c2, c3]
        · simp [CudaECDSAValidator.marshalLoop, c1, c2]
      · simp [CudaECDSAValidator.marshalLoop, c1]

/-- Under the spec-modelled CUDA kernel the archive batch entry point, on a
well-formed batch, returns exactly the ordered reference verdicts of the
zipped requests. -/
theorem verify_batch_gpu_model (ids sigs pks : List (List Nat))
    (h1 : sigs.length = ids.length) (h2 : pks.length = ids.length)
    (hw : ∀ t ∈ zip3 ids sigs pks,
      t.1.length = 32 ∧ t.2.1.length = 64 ∧ t.2.2.length = 32) :
    CudaECDSAValidator.verify_batch_gpu true cudaModelOracle ids sigs pks =
      .ok ((zip3 ids sigs pks).map
        (fun t => ReferenceVerifier.verify t.1 t.2.1 t.2.2)) := by
  unfold CudaECDSAValidator.verify_batch_gpu
  have hz := zip3_length ids sigs pks h1 h2
  simp only [h1, h2, ne_eq, not_true_eq_false, or_self, if_false,
    Bool.true_eq_false, if_neg, reduceCtorEq]
  by_cases h0 : ids.length = 0
  · have : ids = [] := List.length_eq_zero.mp h0
    subst this
    cases sigs <;> cases pks <;> simp [zip3] at h1 h2 ⊢
  · simp only [h0, if_false]
    rw [marshalLoop_ok _ hw]
    simp only [cudaModelOracle]
    simp only [not_true, if_false]
    congr 1
    have hmain :
        (List.range ids.length).map (fun i =>
          ((zip3 ids sigs pks).map
            (fun t => if ReferenceVerifier.verify t.1 t.2.1 t.2.2 then (1 : Int) else 0)).getD i 0
              != 0) =
        (zip3 ids sigs pks).map (fun t => ReferenceVerifier.verify t.1 t.2.1 t.2.2) := by
      rw [← hz, ← List.length_map (zip3 ids sigs pks)
        (fun t => if ReferenceVerifier.verify t.1 t.2.1 t.2.2 then (1 : Int) else 0)]
      rw [range_map_getD
        ((zip3 ids sigs pks).map
          (fun t => if ReferenceVerifier.verify t.1 t.2.1 t.2.2 then (1 : Int) else 0)) 0
        (fun v => v != 0)]
      rw [List.map_map]
      refine List.map_congr_left ?_
      intro t _
      by_cases hv : ReferenceVerifier.verify t.1 t.2.1 t.2.2 <;> simp [Function.comp, hv]
    rw [hmain]

/-! ## Claim theorems -/

/-- C8: `validate` applied to an empty batch returns the empty result
sequence on both validator classes, for every per-request verifier and
every accelerator oracle — so no backend, reference or accelerated, is
invoked or can influence the result. -/
theorem c8_validate_empty :
    (∀ verifyOne, GpuValidator.validate verifyOne [] = []) ∧
    (∀ verifyOne oracle gpuAvailable,
      GpuValidatorTemplate.validate verifyOne oracle gpuAvailable [] = []) :=
  ⟨fun _ => rfl, fun _ _ _ => rfl⟩

/-- C9: every single-step transition of the backend readiness is either the
identity or an initialization step out of `unloaded` — hence contained in
the claim's allowed set of transitions — and the `unavailable` state is
absorbing under every operation sequence: a failed load is never retried,
and no sequence of operations returns a non-ready handle to `ready`. -/
theorem c9_readiness_state_machine :
    (∀ (s : Backend.Readiness) (op : Backend.BackendOp),
      Backend.step s op = s ∨
        (s = .unloaded ∧
          (Backend.step s op = .ready ∨ Backend.step s op = .unavailable))) ∧
    (∀ ops, Backend.run .unavailable ops = .unavailable) := by
  constructor
  · intro s op
    cases op with
    | initOp loadOk => cases s <;> cases loadOk <;> simp [Backend.step]
    | callOp callOk => cases s <;> simp [Backend.step]
  · intro ops
    induction ops with
    | nil => rfl
    | cons op rest ih =>
      have hstep : Backend.step .unavailable op = .unavailable := by
        cases op <;> rfl
      simpa [Backend.run, hstep] using ih

/-- C7: routing of the template `validate`: when the GPU is unavailable or
the batch has at most 10 events the result is the per-request reference map,
independently of the accelerator oracle — the accelerator is never invoked;
when the GPU is available and the batch exceeds 10 events the whole batch is
handed to `verify_signatures_gpu_batch`, which issues a single native call;
and in particular a batch of size 3 is always served by the reference path. -/
theorem c7_routing :
    (∀ oracle gpuAvailable events, gpuAvailable = false ∨ events.length ≤ 10 →
      GpuValidatorTemplate.validate evVerify oracle gpuAvailable events =
        events.map evVerify) ∧
    (∀ oracle events, 10 < events.length →
      GpuValidatorTemplate.validate evVerify oracle true events =
        GpuValidatorTemplate.verify_signatures_gpu_batch oracle true events) ∧
    (∀ oracle gpuAvailable e1 e2 e3,
      GpuValidatorTemplate.validate evVerify oracle gpuAvailable [e1, e2, e3] =
        [evVerify e1, evVerify e2, evVerify e3]) := by
  refine ⟨?_, ?_, ?_⟩
  · intro oracle gpuAvailable events h
    unfold GpuValidatorTemplate.validate
    by_cases hemp : events.isEmpty
    · rw [if_pos hemp]
      rw [List.isEmpty_iff.mp hemp]
      rfl
    · rw [if_neg hemp]
      rcases h with h | h
      · subst h
        simp
      · have : ¬(true = true ∧ 10 < events.length) := by
          rintro ⟨-, hlen⟩
          omega
        cases gpuAvailable <;> simp [this, h, Nat.not_lt.mpr h]
  · intro oracle events h
    have hemp : events.isEmpty = false := by
      cases events with
      | nil => simp at h
      | cons a t => rfl
    unfold GpuValidatorTemplate.validate
    simp [hemp, h]
  · intro oracle gpuAvailable e1 e2 e3
    unfold GpuValidatorTemplate.validate
    cases gpuAvailable <;> simp

/-- C7 witness: the reference-path case at an unavailable GPU with one
request, the accelerator-path case at an 11-event batch, and the literal
size-3 scenario, each at concrete inputs. -/
theorem c7_routing_witness :
    GpuValidatorTemplate.validate evVerify (fun _ => .ok (1, [])) false [evZero] =
      [evVerify evZero] ∧
    GpuValidatorTemplate.validate evVerify (fun _ => .ok (1, []))
        true (List.replicate 11 evZero) =
      GpuValidatorTemplate.verify_signatures_gpu_batch (fun _ => .ok (1, []))
        true (List.replicate 11 evZero) ∧
    GpuValidatorTemplate.validate evVerify (fun _ => .ok (1, []))
        true [evZero, evZero, evZero] =
      [evVerify evZero, evVerify evZero, evVerify evZero] :=
  ⟨by simpa using c7_routing.1 (fun _ => .ok (1, [])) false [evZero] (Or.inl rfl),
   c7_routing.2.1 (fun _ => .ok (1, [])) (List.replicate 11 evZero) (by simp),
   c7_routing.2.2 (fun _ => .ok (1, [])) true evZero evZero evZero⟩

/-- C10 counterexample: a call on a binding whose CUDA library failed to
load, with mismatched input lists, raises `RuntimeError` — not `ValueError`
as the claim states for every call with malformed inputs. -/
theorem c10_counterexample :
    CudaECDSAValidator.verify_batch_gpu false (fun _ _ _ => .ok (0, []))
        [List.replicate 32 0] [] [] = .error .runtimeError ∧
    PyExc.runtimeError ≠ PyExc.valueError :=
  ⟨rfl, by decide⟩

/-- C10 (amended): on an available binding, a length mismatch between the
three input lists, or any event id or public key that is not exactly 32
bytes, or any signature that is not exactly 64 bytes, makes
`verify_batch_gpu` raise `ValueError`: the result is that error for every
native oracle — so the native call is never issued, no result list is
produced, and the embedded backend state (the `cuda_available` flag, which
no call path writes) is unchanged. -/
theorem c10_malformed_raises_valueError (oracle : CudaECDSAValidator.CudaOracle)
    (ids sigs pks : List (List Nat))
    (h : sigs.length ≠ ids.length ∨ pks.length ≠ ids.length ∨
      ∃ t ∈ zip3 ids sigs pks,
        t.1.length ≠ 32 ∨ t.2.1.length ≠ 64 ∨ t.2.2.length ≠ 32) :
    CudaECDSAValidator.verify_batch_gpu true oracle ids sigs pks =
      .error .valueError := by
  unfold CudaECDSAValidator.verify_batch_gpu
  by_cases hmis : ids.length ≠ sigs.length ∨ ids.length ≠ pks.length
  · simp [hmis]
  · push_neg at hmis
    obtain ⟨h1, h2⟩ := hmis
    rcases h with h | h | h
    · exact absurd h1.symm h
    · exact absurd h2.symm h
    · have hne : ids.length ≠ 0 := by
        obtain ⟨t, ht, -⟩ := h
        intro h0
        have : ids = [] := List.length_eq_zero.mp h0
        subst this
        cases sigs <;> cases pks <;> simp [zip3] at ht
      rw [if_neg (by simp : ¬(true = false))]
      rw [if_neg (by simp [← h1, ← h2] :
        ¬(ids.length ≠ sigs.length ∨ ids.length ≠ pks.length))]
      rw [if_neg hne]
      rw [marshalLoop_err _ h]

/-- C10 witness: the amended theorem applied to a concrete mismatched call
on an available binding. -/
theorem c10_malformed_witness :
    CudaECDSAValidator.verify_batch_gpu true (fun _ _ _ => .ok (0, []))
      [List.replicate 32 0] [] [] = .error .valueError :=
  c10_malformed_raises_valueError (fun _ _ _ => .ok (0, []))
    [List.replicate 32 0] [] [] (Or.inl (by decide))

/-- Any failing step of the embedded `try` body — hex decoding, public key
reconstruction, compact signature or scalar parsing — makes the reference
verifier return `false`. -/
theorem verify_cpu_false_of_parse_failure (idHex sigHex pkHex : List Char)
    (h : bytesFromHex idHex = none ∨ bytesFromHex sigHex = none ∨
      bytesFromHex pkHex = none ∨
      (∃ pb, bytesFromHex pkHex = some pb ∧ pubkeyParse pb = none) ∨
      (∃ sb, bytesFromHex sigHex = some sb ∧ Secp.parseCompact sb = none)) :
    verify_signature_cpu idHex sigHex pkHex = false := by
  unfold verify_signature_cpu verifyCpuBody
  rcases h with h | h | h | ⟨pb, hpb, hparse⟩ | ⟨sb, hsb, hparse⟩
  · simp [h]
  · cases hid : bytesFromHex idHex <;> simp [h]
  · cases hid : bytesFromHex idHex <;> cases hsig : bytesFromHex sigHex <;> simp [h]
  · cases hid : bytesFromHex idHex <;> cases hsig : bytesFromHex sigHex <;>
      simp [hpb, hparse]
  · cases hid : bytesFromHex idHex <;> cases hpk0 : bytesFromHex pkHex <;>
      simp [hsb, hpk0] <;> cases hq : pubkeyParse _ <;> simp [hparse]

/-- C4: the reference verifier is a total boolean function — its Python
`try` body is embedded as an `Except` value and the `except` clause maps
every error to `False` — and for every input triple of hex strings, any
hex-decoding failure on a field, any public-key reconstruction failure,
and any compact-signature or scalar parse failure yields the result
`false` rather than an exception. -/
theorem c4_failures_yield_false (idHex sigHex pkHex : List Char)
    (h : bytesFromHex idHex = none ∨ bytesFromHex sigHex = none ∨
      bytesFromHex pkHex = none ∨
      (∃ pb, bytesFromHex pkHex = some pb ∧ pubkeyParse pb = none) ∨
      (∃ sb, bytesFromHex sigHex = some sb ∧ Secp.parseCompact sb = none)) :
    verify_signature_cpu idHex sigHex pkHex = false :=
  verify_cpu_false_of_parse_failure idHex sigHex pkHex h

/-- C4 witness: a field with a non-hexadecimal character decodes to `none`
and the verifier returns `false` on it. -/
theorem c4_failures_witness :
    verify_signature_cpu ['z', 'z'] (bytesToHex sig1B) (bytesToHex pkGB) = false :=
  c4_failures_yield_false ['z', 'z'] (bytesToHex sig1B) (bytesToHex pkGB)
    (Or.inl (by decide))

/-- Indexing below the length commutes with `map` under any defaults. -/
theorem getD_map_lt {α β : Type} (l : List α) (f : α → β) (i : Nat)
    (h : i < l.length) (d : β) (d' : α) :
    (l.map f).getD i d = f (l.getD i d') := by
  induction l generalizing i with
  | nil => simp at h
  | cons a t ih =>
    cases i with
    | zero => simp
    | succ j =>
      simp only [List.map_cons, List.getD_cons_succ]
      exact ih j (by simpa using h)

/-- An in-range indexed element is a member of the list. -/
theorem getD_mem_of_lt {α : Type} (l : List α) (i : Nat) (h : i < l.length) (d : α) :
    l.getD i d ∈ l := by
  induction l generalizing i with
  | nil => simp at h
  | cons a t ih =>
    cases i with
    | zero => simp
    | succ j =>
      simp only [List.getD_cons_succ]
      exact List.mem_cons_of_mem _ (ih j (by simpa using h))

/-- In-range indexing of a three-way zip of equal-length lists picks the
entry triple. -/
theorem zip3_getD {α β γ : Type} (as : List α) (bs : List β) (cs : List γ)
    (h1 : bs.length = as.length) (h2 : cs.length = as.length) (j : Nat)
    (hj : j < as.length) (da : α) (db : β) (dc : γ) :
    (zip3 as bs cs).getD j (da, db, dc) = (as.getD j da, bs.getD j db, cs.getD j dc) := by
  induction as generalizing bs cs j with
  | nil => simp at hj
  | cons a ta ih =>
    cases bs with
    | nil => simp at h1
    | cons b tb =>
      cases cs with
      | nil => simp at h2
      | cons c tc =>
        cases j with
        | zero => simp [zip3]
        | succ k =>
          simp only [zip3, List.getD_cons_succ]
          exact ih tb tc (by simpa using h1) (by simpa using h2) k (by simpa using hj)

/-- C2: with the backend ready and the CUDA kernel modelled from the spec's
functional-equivalence contract, the batch result of `verify_batch_gpu`
equals, index for index and for batches of every size, the booleans the
reference verifier `verify_signature_cpu` computes for the same requests
(presented to the CPU entry point in their hex encoding). -/
theorem c2_accelerator_matches_reference (ids sigs pks : List (List Nat))
    (h1 : sigs.length = ids.length) (h2 : pks.length = ids.length)
    (hw : ∀ t ∈ zip3 ids sigs pks,
      (t.1.length = 32 ∧ t.2.1.length = 64 ∧ t.2.2.length = 32) ∧
      ((∀ b ∈ t.1, b < 256) ∧ (∀ b ∈ t.2.1, b < 256) ∧ (∀ b ∈ t.2.2, b < 256))) :
    CudaECDSAValidator.verify_batch_gpu true cudaModelOracle ids sigs pks =
      .ok ((zip3 ids sigs pks).map
        (fun t =>
          verify_signature_cpu (bytesToHex t.1) (bytesToHex t.2.1) (bytesToHex t.2.2))) := by
  rw [verify_batch_gpu_model ids sigs pks h1 h2 (fun t ht => (hw t ht).1)]
  congr 1
  refine List.map_congr_left ?_
  intro t ht
  obtain ⟨⟨l1, l2, l3⟩, hb1, hb2, hb3⟩ := hw t ht
  exact (verify_signature_cpu_eq_reference t.1 t.2.1 t.2.2 l1 l2 l3 hb1 hb2 hb3).symm

/-- C2 witness: the functional-equivalence theorem applied to the concrete
one-request batch built from `id1B`, `sig1B`, `pkGB`. -/
theorem c2_accelerator_matches_reference_witness :
    CudaECDSAValidator.verify_batch_gpu true cudaModelOracle [id1B] [sig1B] [pkGB] =
      .ok [verify_signature_cpu (bytesToHex id1B) (bytesToHex sig1B) (bytesToHex pkGB)] := by
  have h := c2_accelerator_matches_reference [id1B] [sig1B] [pkGB] rfl rfl (by decide)
  simpa [zip3] using h

/-- C6: the batch result is one boolean per request with the input's length
and index alignment, on both routing paths, and permuting the input batch
permutes the result identically.  For the reference path the result is the
ordered map of the per-event verifier (no omission, reorder or duplication);
for the archived accelerator path, under the spec-modelled kernel, the
result is the ordered map of the reference verdicts of the zipped requests;
and both paths commute with an arbitrary index selection. -/
theorem c6_alignment_and_permutation :
    (∀ events, (GpuValidator.validate evVerify events).length = events.length) ∧
    (∀ events i, i < events.length →
      (GpuValidator.validate evVerify events).getD i false =
        evVerify (events.getD i ⟨[], [], []⟩)) ∧
    (∀ events (σ : List Nat), (∀ j ∈ σ, j < events.length) →
      GpuValidator.validate evVerify (σ.map (fun j => events.getD j ⟨[], [], []⟩)) =
        σ.map (fun j => (GpuValidator.validate evVerify events).getD j false)) ∧
    (∀ ids sigs pks, sigs.length = ids.length → pks.length = ids.length →
      (∀ t ∈ zip3 ids sigs pks,
        t.1.length = 32 ∧ t.2.1.length = 64 ∧ t.2.2.length = 32) →
      CudaECDSAValidator.verify_batch_gpu true cudaModelOracle ids sigs pks =
        .ok ((zip3 ids sigs pks).map
          (fun t => ReferenceVerifier.verify t.1 t.2.1 t.2.2))) ∧
    (∀ ids sigs pks (σ : List Nat), sigs.length = ids.length →
      pks.length = ids.length → (∀ j ∈ σ, j < ids.length) →
      (∀ t ∈ zip3 ids sigs pks,
        t.1.length = 32 ∧ t.2.1.length = 64 ∧ t.2.2.length = 32) →
      CudaECDSAValidator.verify_batch_gpu true cudaModelOracle
          (σ.map (fun j => ids.getD j [])) (σ.map (fun j => sigs.getD j []))
          (σ.map (fun j => pks.getD j [])) =
        .ok (σ.map (fun j => ReferenceVerifier.verify
          (ids.getD j []) (sigs.getD j []) (pks.getD j [])))) := by
  refine ⟨?_, ?_, ?_, ?_, ?_⟩
  · intro events
    rw [GpuValidator.validate_eq_map]
    exact List.length_map events evVerify
  · intro events i hi
    rw [GpuValidator.validate_eq_map]
    exact getD_map_lt events evVerify i hi false ⟨[], [], []⟩
  · intro events σ hσ
    rw [GpuValidator.validate_eq_map, GpuValidator.validate_eq_map, List.map_map]
    refine List.map_congr_left ?_
    intro j hj
    simp only [Function.comp]
    exact (getD_map_lt events evVerify j (hσ j hj) false ⟨[], [], []⟩).symm
  · intro ids sigs pks h1 h2 hw
    exact verify_batch_gpu_model ids sigs pks h1 h2 hw
  · intro ids sigs pks σ h1 h2 hσ hw
    have hz := zip3_length ids sigs pks h1 h2
    have hpickw : ∀ t ∈ zip3 (σ.map (fun j => ids.getD j []))
        (σ.map (fun j => sigs.getD j [])) (σ.map (fun j => pks.getD j [])),
        t.1.length = 32 ∧ t.2.1.length = 64 ∧ t.2.2.length = 32 := by
      rw [zip3_map_common]
      intro t ht
      obtain ⟨j, hj, rfl⟩ := List.mem_map.mp ht
      have hjl := hσ j hj
      have hmem : (ids.getD j [], sigs.getD j [], pks.getD j []) ∈ zip3 ids sigs pks := by
        rw [← zip3_getD ids sigs pks h1 h2 j hjl [] [] []]
        exact getD_mem_of_lt _ j (by omega) _
      exact hw _ hmem
    rw [verify_batch_gpu_model _ _ _ (by simp) (by simp) hpickw]
    rw [zip3_map_common, List.map_map]
    rfl

/-- C6 witness: the alignment and permutation statements applied to the
concrete two-event batch `[ev1, evZero]` with the index selection `[1, 0]`,
and to the concrete one-request byte batch. -/
theorem c6_alignment_witness :
    (GpuValidator.validate evVerify [ev1, evZero]).length = 2 ∧
    GpuValidator.validate evVerify
        ([1, 0].map (fun j => [ev1, evZero].getD j ⟨[], [], []⟩)) =
      [1, 0].map (fun j => (GpuValidator.validate evVerify [ev1, evZero]).getD j false) ∧
    CudaECDSAValidator.verify_batch_gpu true cudaModelOracle [id1B] [sig1B] [pkGB] =
      .ok ((zip3 [id1B] [sig1B] [pkGB]).map
        (fun t => ReferenceVerifier.verify t.1 t.2.1 t.2.2)) :=
  ⟨c6_alignment_and_permutation.1 [ev1, evZero],
   c6_alignment_and_permutation.2.2.1 [ev1, evZero] [1, 0] (by decide),
   c6_alignment_and_permutation.2.2.2.1 [id1B] [sig1B] [pkGB] rfl rfl (by decide)⟩

/-- The template's marshalling loop fails as a whole as soon as any event in
the batch fails to decode. -/
theorem prepEvents_none (events : List NostrEvent)
    (h : ∃ e ∈ events, GpuValidatorTemplate.prepEvent e = none) :
    GpuValidatorTemplate.prepEvents events = none := by
  induction events with
  | nil => simp at h
  | cons a t ih =>
    obtain ⟨e, he, hbad⟩ := h
    rcases List.mem_cons.mp he with rfl | he
    · simp [GpuValidatorTemplate.prepEvents, hbad]
    · unfold GpuValidatorTemplate.prepEvents
      cases hp : GpuValidatorTemplate.prepEvent a
      · rfl
      · rw [ih ⟨e, he, hbad⟩]

set_option maxRecDepth 40000 in
/-- C1 counterexample: the concrete request `(id1B, sig1B, pkGB)` has a
32-byte id, a 64-byte signature and a 32-byte public key, yet
`verify_signature_cpu` accepts it while the spec's verifier that treats the
id directly as the signed digest rejects it — the signature was built over
`sha256 id1B`, so the code's verifier demonstrably applies an extra SHA-256
to the id rather than using it directly. -/
theorem c1_counterexample :
    id1B.length = 32 ∧ sig1B.length = 64 ∧ pkGB.length = 32 ∧
    verify_signature_cpu (bytesToHex id1B) (bytesToHex sig1B) (bytesToHex pkGB) = true ∧
    ReferenceVerifier.verifyNoHash id1B sig1B pkGB = false := by
  refine ⟨by decide, by decide, by decide, ?_, ?_⟩
  · decide
  · decide

/-- C1 (amended): for every 32-byte id, 64-byte signature and 32-byte
pubkey, the reference verifier reconstructs the even-y point, parses the
compact `r‖s` signature, and runs the library's elliptic-curve verification
— but against the SHA-256 hash of the id as the signed digest (the
binding's default `raw=False` hashing), not against the id used directly. -/
theorem c1_amended_digest_is_sha256 (i s pk : List Nat)
    (hi : i.length = 32) (hs : s.length = 64) (hp : pk.length = 32)
    (hbi : ∀ b ∈ i, b < 256) (hbs : ∀ b ∈ s, b < 256) (hbp : ∀ b ∈ pk, b < 256) :
    verify_signature_cpu (bytesToHex i) (bytesToHex s) (bytesToHex pk) =
      ReferenceVerifier.verify i s pk :=
  verify_signature_cpu_eq_reference i s pk hi hs hp hbi hbs hbp

/-- C1 witness: the amended correspondence applied to the concrete
well-formed request `(id1B, sig1B, pkGB)`. -/
theorem c1_amended_witness :
    verify_signature_cpu (bytesToHex id1B) (bytesToHex sig1B) (bytesToHex pkGB) =
      ReferenceVerifier.verify id1B sig1B pkGB :=
  c1_amended_digest_is_sha256 id1B sig1B pkGB (by decide) (by decide) (by decide)
    (by decide) (by decide) (by decide)

set_option maxRecDepth 40000 in
/-- C5 counterexample: the event `ev31` has an id field that decodes to 31
bytes — not the required 32 — yet the batch validation of `[ev31]` returns
`[true]`, not `[false]`: the CPU path never checks the id width, it hashes
whatever bytes the id field decodes to, and `sig31B` was built over exactly
that hash. -/
theorem c5_counterexample :
    (bytesFromHex ev31.id).map List.length = some 31 ∧
    GpuValidator.validate evVerify [ev31] = [true] := by
  constructor
  · decide
  · have h : evVerify ev31 = true := by decide
    rw [GpuValidator.validate_eq_map]
    simp [h]

/-- C5 (amended): on the per-request CPU path an encoding failure is local
and yields `false`: a request whose field fails hex decoding, or whose
signature decodes to other than 64 bytes, or whose public key decodes to
other than 32 bytes, receives `false`, and the batch result is the ordered
per-request map, so every other index is unaffected.  A wrong-width id is
not rejected by that path (see the counterexample).  On the template's GPU
batch path, by contrast, a hex-decoding failure in any single request yields
`false` for the entire batch. -/
theorem c5_malformed_field_behaviour :
    (∀ events i, i < events.length →
      (bytesFromHex (events.getD i ⟨[], [], []⟩).id = none ∨
       bytesFromHex (events.getD i ⟨[], [], []⟩).sig = none ∨
       bytesFromHex (events.getD i ⟨[], [], []⟩).pubkey = none ∨
       (∃ sb, bytesFromHex (events.getD i ⟨[], [], []⟩).sig = some sb ∧
         sb.length ≠ 64) ∨
       (∃ pb, bytesFromHex (events.getD i ⟨[], [], []⟩).pubkey = some pb ∧
         pb.length ≠ 32)) →
      (GpuValidator.validate evVerify events).getD i false = false) ∧
    (∀ events, GpuValidator.validate evVerify events = events.map evVerify) ∧
    (∀ oracle events, (∃ e ∈ events,
        bytesFromHex e.id = none ∨ bytesFromHex e.sig = none ∨
        bytesFromHex e.pubkey = none) →
      GpuValidatorTemplate.verify_signatures_gpu_batch oracle true events =
        List.replicate events.length false) := by
  refine ⟨?_, GpuValidator.validate_eq_map evVerify, ?_⟩
  · intro events i hi h
    rw [GpuValidator.validate_eq_map,
      getD_map_lt events evVerify i hi false ⟨[], [], []⟩]
    apply verify_cpu_false_of_parse_failure
    rcases h with h | h | h | ⟨sb, hsb, hlen⟩ | ⟨pb, hpb, hlen⟩
    · exact Or.inl h
    · exact Or.inr (Or.inl h)
    · exact Or.inr (Or.inr (Or.inl h))
    · refine Or.inr (Or.inr (Or.inr (Or.inr ⟨sb, hsb, ?_⟩)))
      unfold Secp.parseCompact
      rw [if_neg hlen]
    · refine Or.inr (Or.inr (Or.inr (Or.inl ⟨pb, hpb, ?_⟩)))
      unfold pubkeyParse
      rw [if_neg hlen]
  · intro oracle events h
    obtain ⟨e, he, hbad⟩ := h
    have hne : events.isEmpty = false := by
      cases events with
      | nil => simp at he
      | cons a t => rfl
    have hp : GpuValidatorTemplate.prepEvent e = none := by
      unfold GpuValidatorTemplate.prepEvent
      rcases hbad with h | h | h
      · rw [h]
      · cases hid : bytesFromHex e.id <;> simp [h]
      · cases hid : bytesFromHex e.id <;> cases hsig : bytesFromHex e.sig <;> simp [h]
    unfold GpuValidatorTemplate.verify_signatures_gpu_batch
    rw [prepEvents_none events ⟨e, he, hp⟩]
    simp [hne]

/-- C5 witness: the amended statement applied to a one-event batch whose
signature field has a non-hexadecimal character, and to a two-event template
batch in which that one malformed request blanks both results. -/
theorem c5_malformed_field_witness :
    (GpuValidator.validate evVerify [evBadSig]).getD 0 false = false ∧
    GpuValidatorTemplate.verify_signatures_gpu_batch (fun _ => .ok (0, [1, 1]))
        true [ev1, evBadSig] = [false, false] :=
  ⟨c5_malformed_field_behaviour.1 [evBadSig] 0 (by decide)
      (Or.inr (Or.inl (by decide))),
   by
    have h := c5_malformed_field_behaviour.2.2 (fun _ => .ok (0, [1, 1]))
      [ev1, evBadSig]
      ⟨evBadSig, List.mem_cons_of_mem _ (List.mem_cons_self ..),
        Or.inr (Or.inl (by decide))⟩
    simpa using h⟩

set_option maxRecDepth 40000 in
/-- C3: the template's batch path does not recompute a failed accelerator
call through the reference verifier.  At the concrete failing input — the
GPU available, a batch of 11 copies of the valid request `ev1`, and a native
call that reports a nonzero status — `validate` returns eleven `false`
verdicts, while the reference computation for the same batch is eleven
`true` verdicts, which is what the claim (and the code's own fallback
message) promises. -/
theorem c3_failed_call_not_recomputed :
    GpuValidatorTemplate.validate evVerify (fun _ => .ok (1, [])) true
        (List.replicate 11 ev1) = List.replicate 11 false ∧
    GpuValidator.validate evVerify (List.replicate 11 ev1) =
      List.replicate 11 true ∧
    verify_signatures_batch_gpu true (fun _ _ _ => .ok (1, []))
        (List.replicate 11 (ev1.id, ev1.sig, ev1.pubkey)) =
      List.replicate 11 true := by
  have h : evVerify ev1 = true := by decide
  refine ⟨by decide, ?_, ?_⟩
  · rw [GpuValidator.validate_eq_map]
    simp [List.map_replicate, h]
  · have hids : decodeAll (List.replicate 11 (ev1.id, ev1.sig, ev1.pubkey)
        |>.map (fun t => t.1)) = some (List.replicate 11 id1B) := by decide
    have hsigs : decodeAll (List.replicate 11 (ev1.id, ev1.sig, ev1.pubkey)
        |>.map (fun t => t.2.1)) = some (List.replicate 11 sig1B) := by decide
    have hpks : decodeAll (List.replicate 11 (ev1.id, ev1.sig, ev1.pubkey)
        |>.map (fun t => t.2.2)) = some (List.replicate 11 pkGB) := by decide
    have hbg : CudaECDSAValidator.verify_batch_gpu true (fun _ _ _ => .ok (1, []))
        (List.replicate 11 id1B) (List.replicate 11 sig1B) (List.replicate 11 pkGB) =
        .error .runtimeError := by rfl
    have hcpu : verify_signature_cpu ev1.id ev1.sig ev1.pubkey = true := h
    unfold verify_signatures_batch_gpu
    rw [hids, hsigs, hpks]
    show (match CudaECDSAValidator.verify_batch_gpu true (fun _ _ _ => .ok (1, []))
        (List.replicate 11 id1B) (List.replicate 11 sig1B) (List.replicate 11 pkGB) with
      | .error _ => List.map (fun t => verify_signature_cpu t.1 t.2.1 t.2.2)
          (List.replicate 11 (ev1.id, ev1.sig, ev1.pubkey))
      | .ok res => res) = List.replicate 11 true
    rw [hbg, List.map_replicate]
    simp [hcpu]
